import Mathlib

/-!
Verification of the image-processor batch pipeline.

Shallow embedding of the repository source:
  - image_processor/formats.py        (save_with_format, SUPPORTED_FORMATS, QUALITY_DEFAULTS)
  - image_processor/main.py           (resize_image, rotate, _extract_orientation,
                                       _update_orientation, process_images, SUPPORTED_SUFFIXES)

Strings and filesystem paths are modelled as lists of characters (Str), so
that the CPython pathlib suffix and stem computations can be reasoned about by
structural induction.  Filesystem and imaging-library effects are modelled by
explicit parameters: a transform receives its input and output paths and
returns an Outcome; the points where PIL may raise are modelled as Option
parameters carrying the message of the raised exception, mirroring the
try/except structure of the source.
-/

/-- Character list standing for a Python str. -/
abbrev Str := List Char

/-- Python str.lower, restricted to the ASCII range used by the program. -/
def strLower (s : Str) : Str := s.map Char.toLower

/-- Splits a file name at its last dot: some (before, after) when a dot
occurs, none otherwise.  Helper for the CPython pathlib suffix and stem. -/
def splitLastDot : Str → Option (Str × Str)
  | [] => none
  | c :: rest =>
    match splitLastDot rest with
    | some (pre, post) => some (c :: pre, post)
    | none => if c = '.' then some ([], rest) else none

/-- CPython pathlib PurePath.suffix on a file name: the part of the name from
the last dot on, unless the last dot is the first character or the final
character of the name, in which case the suffix is empty. -/
def pySuffix (name : Str) : Str :=
  match splitLastDot name with
  | some (pre, post) => if pre ≠ [] ∧ post ≠ [] then '.' :: post else []
  | none => []

/-- CPython pathlib PurePath.stem on a file name: the name with the suffix
removed (the whole name when the suffix is empty). -/
def pyStem (name : Str) : Str :=
  match splitLastDot name with
  | some (pre, post) => if pre ≠ [] ∧ post ≠ [] then pre else name
  | none => name

/-- SUPPORTED_SUFFIXES from image_processor/main.py. -/
def SUPPORTED_SUFFIXES : List Str :=
  [".jpg".toList, ".jpeg".toList, ".png".toList, ".webp".toList]

/-- The discovery filter of process_images: a directory entry is eligible
when f.suffix.lower() is in SUPPORTED_SUFFIXES. -/
def eligible (f : Str) : Bool :=
  decide (strLower (pySuffix f) ∈ SUPPORTED_SUFFIXES)

/-- SUPPORTED_FORMATS from image_processor/formats.py. -/
def SUPPORTED_FORMATS : List Str :=
  ["jpeg".toList, "jpg".toList, "webp".toList, "png".toList]

/-- QUALITY_DEFAULTS from image_processor/formats.py: the outer Option is
dictionary-key presence, the inner Option is the stored value (the png entry
stores Python None). -/
def QUALITY_DEFAULTS (fmt : Str) : Option (Option Nat) :=
  if fmt = "jpeg".toList then some (some 85)
  else if fmt = "webp".toList then some (some 80)
  else if fmt = "png".toList then some none
  else none

/-- The keyword arguments save_with_format passes to PIL Image.save.  A none
quality or progressive field means the corresponding key is absent from
save_kwargs. -/
structure SaveKwargs where
  fmt : Str
  quality : Option Nat
  progressive : Option Bool
  optimize : Bool
deriving DecidableEq, Repr

/-- Observable result of save_with_format: the UnsupportedFormatError raise,
the ImageProcessingError wrapping a failing Image.save call, or a successful
save with the keyword arguments it used. -/
inductive SaveOutcome where
  | unsupportedFormat (msg : Str)
  | ioError (msg : Str)
  | saved (kwargs : SaveKwargs)
deriving DecidableEq, Repr

/-- Message of the UnsupportedFormatError raise in save_with_format.  The
source joins the elements of the SUPPORTED_FORMATS set; CPython set iteration
order is an implementation detail, fixed here to insertion order (no claim
depends on the joined list). -/
def unsupportedMsg (fmt : Str) : Str :=
  "Format '".toList ++ fmt ++ "' not supported. Use: jpeg, jpg, webp, png".toList

/-- Embedding of save_with_format from image_processor/formats.py.  The io
parameter models whether the final img.save call raises (some carries the
message of the exception); everything before that point is the deterministic
format and quality logic of the source. -/
def save_with_format (output_path : Str) (fmt : Str) (quality : Option Nat)
    (progressive : Bool) (io : Option Str) : SaveOutcome :=
  let f := strLower fmt
  if f ∈ SUPPORTED_FORMATS then
    let q : Option Nat :=
      match quality with
      | some q0 => some q0
      | none =>
        match QUALITY_DEFAULTS f with
        | some v => v
        | none => some 85
    let kwargs : SaveKwargs :=
      if f = "jpeg".toList ∨ f = "jpg".toList then
        { fmt := "JPEG".toList
          quality := q
          progressive := some progressive
          optimize := true }
      else if f = "webp".toList then
        { fmt := "WEBP".toList
          quality := q
          progressive := none
          optimize := true }
      else
        { fmt := "PNG".toList
          quality := none
          progressive := none
          optimize := true }
    match io with
    | some e => .ioError ("Failed to save ".toList ++ output_path ++ ": ".toList ++ e)
    | none => .saved kwargs
  else .unsupportedFormat (unsupportedMsg f)

/-- Resolved result of one job, as seen by the as_completed loop of
process_images: the per-job future either returns None or raises, and the
raised exception renders as a message. -/
inductive Outcome where
  | success
  | failure (msg : Str)
deriving DecidableEq, Repr

/-- Embedding of resize_image from image_processor/main.py.  The pil
parameter models whether Image.open or resize raises (some carries the
message); io models whether the img.save inside save_with_format raises.  Any
exception is wrapped into a CorruptedFileError whose message is produced by
the f-string of the source. -/
def resize_image (pil : Option Str) (io : Option Str) (image_path output_path : Str)
    (fmt : Str) (quality : Option Nat) : Outcome :=
  match pil with
  | some e =>
    .failure ("Failed to process ".toList ++ image_path ++ ": ".toList ++ e)
  | none =>
    match save_with_format output_path fmt quality true io with
    | .unsupportedFormat m =>
      .failure ("Failed to process ".toList ++ image_path ++ ": ".toList ++ m)
    | .ioError m =>
      .failure ("Failed to process ".toList ++ image_path ++ ": ".toList ++ m)
    | .saved _ => .success

/-- The parsed EXIF dictionary as used by the rotate transform: only the
orientation entry of the 0th IFD is relevant.  A none orientation models an
EXIF block without an orientation entry. -/
structure ExifDict where
  orientation : Option Nat
deriving DecidableEq, Repr

/-- Embedding of _extract_orientation: the argument is img.info exif, none
standing for absent or empty bytes; the orientation defaults to 1 when the
EXIF data or the orientation entry is missing. -/
def _extract_orientation (exif : Option ExifDict) : Nat :=
  match exif with
  | none => 1
  | some d => d.orientation.getD 1

/-- Embedding of _update_orientation: sets the orientation entry of the 0th
IFD to the given value. -/
def _update_orientation (d : ExifDict) (o : Nat) : ExifDict :=
  { d with orientation := some o }

/-- The pixel rotation the rotate transform applies (degrees counterclockwise,
as passed to PIL Image.rotate). -/
inductive Rotation where
  | noRotation
  | deg90
  | deg180
  | deg270
deriving DecidableEq, Repr

/-- The orientation dispatch of rotate: orientations 3, 6 and 8 get 180, 270
and 90 degree rotations; every other value, including the default 1, gets
none. -/
def rotationFor (o : Nat) : Rotation :=
  if o = 3 then .deg180
  else if o = 6 then .deg270
  else if o = 8 then .deg90
  else .noRotation

/-- How the rotate transform writes its output: the direct
Image.save JPEG call of the EXIF-preserving branch (with its effective
quality), or a call to save_with_format. -/
inductive RotateSave where
  | jpegDirect (quality : Nat)
  | viaFormat (outcome : SaveOutcome)
deriving DecidableEq, Repr

/-- Observable result of a successful rotate run: the pixel rotation applied,
the exif keyword argument passed to Image.save (none when no exif argument is
passed, as in the save_with_format branch whose save_kwargs never contain
exif), the EXIF dictionary still attached to the image object at the moment
it is handed to the encoder, and the save call used. -/
structure RotateOutput where
  rotation : Rotation
  exifArg : Option ExifDict
  infoExif : Option ExifDict
  save : RotateSave
deriving DecidableEq, Repr

/-- The Python expression quality or 85 of the EXIF-preserving save: None and
0 are falsy, so both fall back to 85. -/
def pyOrDefault85 (q : Option Nat) : Nat :=
  match q with
  | none => 85
  | some 0 => 85
  | some q0 => q0

/-- Embedding of rotate from image_processor/main.py, for runs in which the
source decodes and its EXIF bytes parse (the claims about rotate concern
successful runs; any exception would be wrapped into CorruptedFileError as in
resize_image).  srcExif is img.info exif, none standing for absent or empty
bytes.  The EXIF-preserving branch is taken exactly when format.lower() is
jpeg or jpg and the image carries EXIF data; only that branch rewrites the
orientation tag, the other branch hands the image, with its original EXIF
dictionary still attached, to save_with_format. -/
def rotate (srcExif : Option ExifDict) (output_path fmt : Str) (quality : Option Nat)
    (io : Option Str) : RotateOutput :=
  let orientation := _extract_orientation srcExif
  let rot := rotationFor orientation
  match srcExif with
  | some d =>
    if strLower fmt = "jpeg".toList ∨ strLower fmt = "jpg".toList then
      let d1 := _update_orientation d 1
      { rotation := rot
        exifArg := some d1
        infoExif := some d1
        save := .jpegDirect (pyOrDefault85 quality) }
    else
      { rotation := rot
        exifArg := none
        infoExif := some d
        save := .viaFormat (save_with_format output_path fmt quality true io) }
  | none =>
    { rotation := rot
      exifArg := none
      infoExif := none
      save := .viaFormat (save_with_format output_path fmt quality true io) }

/-- The output file name built by process_images for one input file:
Path(image_file).stem + "." + format. -/
def outputName (image_file : Str) (fmt : Str) : Str :=
  pyStem image_file ++ '.' :: fmt

/-- One submitted job: the input path and the destination path handed to the
process function. -/
structure Job where
  input_path : Str
  output_path : Str
deriving DecidableEq, Repr

/-- The job process_images builds for one eligible file. -/
def mkJob (image_folder output_folder fmt image_file : Str) : Job :=
  { input_path := image_folder ++ '/' :: image_file
    output_path := output_folder ++ '/' :: outputName image_file fmt }

/-- All jobs submitted by a run of process_images: one per eligible file of
the directory listing, in listing order. -/
def batchJobs (image_folder output_folder fmt : Str) (listing : List Str) : List Job :=
  (listing.filter (fun f => eligible f)).map
    (fun f => mkJob image_folder output_folder fmt f)

/-- The counts and error list accumulated by the as_completed loop and handed
to _print_processing_summary.  total is the number of submitted jobs (the
progress-bar total, len(image_files)). -/
structure BatchReport where
  total : Nat
  successful : Nat
  failed : Nat
  errors : List Str
deriving DecidableEq, Repr

/-- One iteration of the as_completed loop of process_images: a resolving job
either increments successful, or increments failed and appends the input path
and exception message to the error list. -/
def collectJob (transform : Str → Str → Str → Option Nat → Outcome)
    (image_folder output_folder fmt : Str) (quality : Option Nat)
    (acc : BatchReport) (image_file : Str) : BatchReport :=
  let j := mkJob image_folder output_folder fmt image_file
  match transform j.input_path j.output_path fmt quality with
  | .success => { acc with successful := acc.successful + 1 }
  | .failure msg =>
    { acc with
      failed := acc.failed + 1
      errors := acc.errors ++ [j.input_path ++ ": ".toList ++ msg] }

/-- Embedding of process_images from image_processor/main.py.  listing is the
directory iteration of the input folder; transform is the process function
applied to (input path, output path, format, quality); order is the sequence
in which as_completed delivers the submitted jobs, identified by input file
name (each future resolves exactly once, so a complete run has order a
permutation of the eligible files).  Returns none on the early return taken
when no eligible file is found, in which case no job is submitted and no
summary is produced. -/
def process_images (image_folder output_folder : Str)
    (transform : Str → Str → Str → Option Nat → Outcome)
    (fmt : Str) (quality : Option Nat)
    (listing : List Str) (order : List Str) : Option BatchReport :=
  let image_files := listing.filter (fun f => eligible f)
  if image_files.isEmpty then none
  else
    some (order.foldl (collectJob transform image_folder output_folder fmt quality)
      { total := image_files.length, successful := 0, failed := 0, errors := [] })

/-- One loop iteration never changes the total recorded at submission time. -/
theorem collectJob_total (t : Str → Str → Str → Option Nat → Outcome)
    (f o fm : Str) (q : Option Nat) (acc : BatchReport) (x : Str) :
    (collectJob t f o fm q acc x).total = acc.total := by
  simp only [collectJob]
  cases t (mkJob f o fm x).input_path (mkJob f o fm x).output_path fm q <;> rfl

/-- One loop iteration increments exactly one of the two counters. -/
theorem collectJob_counts (t : Str → Str → Str → Option Nat → Outcome)
    (f o fm : Str) (q : Option Nat) (acc : BatchReport) (x : Str) :
    (collectJob t f o fm q acc x).successful + (collectJob t f o fm q acc x).failed
      = acc.successful + acc.failed + 1 := by
  simp only [collectJob]
  cases t (mkJob f o fm x).input_path (mkJob f o fm x).output_path fm q <;> simp <;> omega

/-- One loop iteration only ever appends to the error list. -/
theorem collectJob_errors_mono (t : Str → Str → Str → Option Nat → Outcome)
    (f o fm : Str) (q : Option Nat) (acc : BatchReport) (x : Str) (e : Str)
    (h : e ∈ acc.errors) : e ∈ (collectJob t f o fm q acc x).errors := by
  simp only [collectJob]
  cases t (mkJob f o fm x).input_path (mkJob f o fm x).output_path fm q <;> simp [h]

/-- The completion loop preserves the total. -/
theorem foldl_collect_total (t : Str → Str → Str → Option Nat → Outcome)
    (f o fm : Str) (q : Option Nat) (order : List Str) (acc : BatchReport) :
    (order.foldl (collectJob t f o fm q) acc).total = acc.total := by
  induction order generalizing acc with
  | nil => rfl
  | cons x xs ih => rw [List.foldl_cons, ih, collectJob_total]

/-- The completion loop adds exactly one count per delivered job. -/
theorem foldl_collect_counts (t : Str → Str → Str → Option Nat → Outcome)
    (f o fm : Str) (q : Option Nat) (order : List Str) (acc : BatchReport) :
    (order.foldl (collectJob t f o fm q) acc).successful
      + (order.foldl (collectJob t f o fm q) acc).failed
      = acc.successful + acc.failed + order.length := by
  induction order generalizing acc with
  | nil => simp
  | cons x xs ih =>
    rw [List.foldl_cons, ih]
    have h1 := collectJob_counts t f o fm q acc x
    simp only [List.length_cons]
    omega

/-- The completion loop never drops accumulated error entries. -/
theorem foldl_collect_errors_mono (t : Str → Str → Str → Option Nat → Outcome)
    (f o fm : Str) (q : Option Nat) (order : List Str) (acc : BatchReport) (e : Str)
    (h : e ∈ acc.errors) : e ∈ (order.foldl (collectJob t f o fm q) acc).errors := by
  induction order generalizing acc with
  | nil => exact h
  | cons x xs ih =>
    rw [List.foldl_cons]
    exact ih _ (collectJob_errors_mono t f o fm q acc x e h)

/-- A delivered job whose transform raised contributes its error entry. -/
theorem foldl_collect_errors_of_fail (t : Str → Str → Str → Option Nat → Outcome)
    (f o fm : Str) (q : Option Nat) (order : List Str) (acc : BatchReport)
    (name msg : Str) (hmem : name ∈ order)
    (hf : t (mkJob f o fm name).input_path (mkJob f o fm name).output_path fm q
        = .failure msg) :
    ((mkJob f o fm name).input_path ++ ": ".toList ++ msg)
      ∈ (order.foldl (collectJob t f o fm q) acc).errors := by
  induction order generalizing acc with
  | nil => cases hmem
  | cons x xs ih =>
    rw [List.foldl_cons]
    rcases List.mem_cons.mp hmem with rfl | hxs
    · apply foldl_collect_errors_mono
      simp only [collectJob, hf]
      simp
    · exact ih _ hxs

/-- The discovery filter of a run is nonempty exactly when isEmpty is false. -/
theorem filter_not_isEmpty_of_ne_nil (listing : List Str)
    (hne : listing.filter (fun f => eligible f) ≠ []) :
    (listing.filter (fun f => eligible f)).isEmpty = false := by
  cases hfe : listing.filter (fun f => eligible f) with
  | nil => exact absurd hfe hne
  | cons a as => rfl

/-- C1: for every run over a set of N discovered eligible files in which every
submitted job resolves (the completion order is a permutation of the eligible
files), the final report satisfies successful + failed = total and
total = N, the number of discovered eligible files. -/
theorem process_images_counts_invariant (image_folder output_folder fmt : Str)
    (quality : Option Nat) (transform : Str → Str → Str → Option Nat → Outcome)
    (listing order : List Str)
    (hperm : order.Perm (listing.filter (fun f => eligible f)))
    (hne : listing.filter (fun f => eligible f) ≠ []) :
    ∃ r, process_images image_folder output_folder transform fmt quality listing order
        = some r
      ∧ r.total = (listing.filter (fun f => eligible f)).length
      ∧ r.successful + r.failed = r.total := by
  have hE := filter_not_isEmpty_of_ne_nil listing hne
  refine ⟨order.foldl (collectJob transform image_folder output_folder fmt quality)
      { total := (listing.filter (fun f => eligible f)).length
        successful := 0
        failed := 0
        errors := [] }, ?_, ?_, ?_⟩
  · simp [process_images, hE]
  · rw [foldl_collect_total]
  · rw [foldl_collect_counts, foldl_collect_total]
    simp [hperm.length_eq]

/-- Witness for C1 at a concrete two-file listing with one ineligible file. -/
theorem process_images_counts_invariant_witness :
    ∃ r, process_images "in".toList "out".toList
        (fun i o f q => Outcome.success) "jpeg".toList none
        ["a.jpg".toList, "b.txt".toList] ["a.jpg".toList] = some r
      ∧ r.total = ((["a.jpg".toList, "b.txt".toList] : List Str).filter
          (fun f => eligible f)).length
      ∧ r.successful + r.failed = r.total :=
  process_images_counts_invariant "in".toList "out".toList "jpeg".toList none
    (fun i o f q => Outcome.success) ["a.jpg".toList, "b.txt".toList]
    ["a.jpg".toList] (by decide) (by decide)

/-- C2: for every batch and every job whose transform raises, the exception
is caught at the per-job boundary and recorded as a failure entry carrying
the input path of the job and the error message; the run still returns a
report (no propagation to the coordinator) in which every submitted job is
counted. -/
theorem job_failure_isolated (image_folder output_folder fmt : Str)
    (quality : Option Nat) (transform : Str → Str → Str → Option Nat → Outcome)
    (listing order : List Str) (name msg : Str)
    (hperm : order.Perm (listing.filter (fun f => eligible f)))
    (hmem : name ∈ listing) (hel : eligible name = true)
    (hfail : transform (mkJob image_folder output_folder fmt name).input_path
        (mkJob image_folder output_folder fmt name).output_path fmt quality
        = .failure msg) :
    ∃ r, process_images image_folder output_folder transform fmt quality listing order
        = some r
      ∧ ((mkJob image_folder output_folder fmt name).input_path ++ ": ".toList ++ msg)
          ∈ r.errors
      ∧ r.successful + r.failed = r.total
      ∧ r.total = (listing.filter (fun f => eligible f)).length := by
  have hfilter : name ∈ listing.filter (fun f => eligible f) :=
    List.mem_filter.mpr ⟨hmem, hel⟩
  have hne : listing.filter (fun f => eligible f) ≠ [] :=
    List.ne_nil_of_mem hfilter
  have horder : name ∈ order := hperm.mem_iff.mpr hfilter
  have hE := filter_not_isEmpty_of_ne_nil listing hne
  refine ⟨order.foldl (collectJob transform image_folder output_folder fmt quality)
      { total := (listing.filter (fun f => eligible f)).length
        successful := 0
        failed := 0
        errors := [] }, ?_, ?_, ?_, ?_⟩
  · simp [process_images, hE]
  · exact foldl_collect_errors_of_fail transform image_folder output_folder fmt quality
      order _ name msg horder hfail
  · rw [foldl_collect_counts, foldl_collect_total]
    simp [hperm.length_eq]
  · rw [foldl_collect_total]

/-- Witness for C2: one failing job among two eligible files. -/
theorem job_failure_isolated_witness :
    ∃ r, process_images "in".toList "out".toList
        (fun i o f q => if i = "in/a.jpg".toList then Outcome.failure "boom".toList
          else Outcome.success)
        "jpeg".toList none
        ["a.jpg".toList, "b.png".toList] ["b.png".toList, "a.jpg".toList] = some r
      ∧ ((mkJob "in".toList "out".toList "jpeg".toList "a.jpg".toList).input_path
          ++ ": ".toList ++ "boom".toList) ∈ r.errors
      ∧ r.successful + r.failed = r.total
      ∧ r.total = ((["a.jpg".toList, "b.png".toList] : List Str).filter
          (fun f => eligible f)).length :=
  job_failure_isolated "in".toList "out".toList "jpeg".toList none
    (fun i o f q => if i = "in/a.jpg".toList then Outcome.failure "boom".toList
      else Outcome.success)
    ["a.jpg".toList, "b.png".toList] ["b.png".toList, "a.jpg".toList]
    "a.jpg".toList "boom".toList (by decide) (by decide) (by decide) (by decide)

/-- C7 counterexample: with a listing containing no eligible file, the run
takes the early return and produces no report at all (in particular not a
report with total 0); it prints a no-supported-images notice instead. -/
theorem empty_dir_no_report_counterexample :
    process_images "in".toList "out".toList (fun i o f q => Outcome.success)
      "jpeg".toList none ["notes.txt".toList] [] = none := by
  decide

/-- C7 amended: for every input directory containing zero eligible files, the
batch run returns normally without raising and without dispatching any job:
process_images takes the early return (result none, no summary report), so in
particular no error entry is ever produced. -/
theorem empty_dir_returns_early (image_folder output_folder fmt : Str)
    (quality : Option Nat) (transform : Str → Str → Str → Option Nat → Outcome)
    (listing order : List Str)
    (hempty : listing.filter (fun f => eligible f) = []) :
    process_images image_folder output_folder transform fmt quality listing order
      = none := by
  simp [process_images, hempty]

/-- Witness for the amended C7 at a concrete ineligible listing. -/
theorem empty_dir_returns_early_witness :
    process_images "in".toList "out".toList (fun i o f q => Outcome.success)
      "jpeg".toList none ["readme.md".toList] [] = none :=
  empty_dir_returns_early "in".toList "out".toList "jpeg".toList none
    (fun i o f q => Outcome.success) ["readme.md".toList] [] (by decide)

/-- A name without a dot has no split. -/
theorem splitLastDot_of_no_dot (s : Str) (h : '.' ∉ s) : splitLastDot s = none := by
  induction s with
  | nil => rfl
  | cons c cs ih =>
    simp only [List.mem_cons, not_or] at h
    simp only [splitLastDot]
    rw [ih h.2]
    rw [if_neg (fun hc => h.1 hc.symm)]

/-- Appending a dot and a dot-free tail splits exactly there. -/
theorem splitLastDot_append_no_dot (s ext : Str) (h : '.' ∉ ext) :
    splitLastDot (s ++ '.' :: ext) = some (s, ext) := by
  induction s with
  | nil =>
    simp only [List.nil_append, splitLastDot, splitLastDot_of_no_dot ext h]
    rfl
  | cons c cs ih =>
    have ih2 : splitLastDot (List.append cs ('.' :: ext)) = some (cs, ext) := ih
    simp only [List.cons_append, splitLastDot, ih2]

/-- A file name accepted by the discovery filter has a nonempty stem. -/
theorem pyStem_ne_nil_of_eligible (name : Str) (hel : eligible name = true) :
    pyStem name ≠ [] := by
  have hsuf : pySuffix name ≠ [] := by
    intro h0
    rw [eligible, decide_eq_true_eq, h0] at hel
    simp [strLower, SUPPORTED_SUFFIXES] at hel
  cases hsd : splitLastDot name with
  | none => exact absurd (by simp [pySuffix, hsd]) hsuf
  | some pp =>
    obtain ⟨pre, post⟩ := pp
    by_cases hc : pre ≠ [] ∧ post ≠ []
    · simp only [pyStem, hsd]
      rw [if_pos hc]
      exact hc.1
    · exact absurd (by simp only [pySuffix, hsd]; rw [if_neg hc]) hsuf

/-- The suffix of stem.ext is .ext when the stem is nonempty and ext is a
nonempty dot-free extension. -/
theorem pySuffix_append_ext (s ext : Str) (hs : s ≠ [])
    (hd : '.' ∉ ext) (hn : ext ≠ []) :
    pySuffix (s ++ '.' :: ext) = '.' :: ext := by
  simp only [pySuffix, splitLastDot_append_no_dot s ext hd]
  rw [if_pos ⟨hs, hn⟩]

/-- The stem of stem.ext is the stem under the same conditions. -/
theorem pyStem_append_ext (s ext : Str) (hs : s ≠ [])
    (hd : '.' ∉ ext) (hn : ext ≠ []) :
    pyStem (s ++ '.' :: ext) = s := by
  simp only [pyStem, splitLastDot_append_no_dot s ext hd]
  rw [if_pos ⟨hs, hn⟩]

/-- C3: for every eligible input file and every requested output format, the
destination path of its job is output_dir/stem.format, and the extension of
the output file name is the requested format, independent of the input
extension. -/
theorem destination_extension_matches_format (image_folder output_folder name fmt : Str)
    (hel : eligible name = true)
    (hfmt : fmt ∈ ["jpeg".toList, "webp".toList, "png".toList]) :
    (mkJob image_folder output_folder fmt name).output_path
      = output_folder ++ '/' :: (pyStem name ++ '.' :: fmt)
    ∧ pySuffix (outputName name fmt) = '.' :: fmt
    ∧ pyStem (outputName name fmt) = pyStem name := by
  have hstem := pyStem_ne_nil_of_eligible name hel
  simp only [List.mem_cons, List.not_mem_nil, or_false] at hfmt
  have hd : '.' ∉ fmt := by
    rcases hfmt with rfl | rfl | rfl <;> decide
  have hn : fmt ≠ [] := by
    rcases hfmt with rfl | rfl | rfl <;> decide
  refine ⟨rfl, ?_, ?_⟩
  · exact pySuffix_append_ext (pyStem name) fmt hstem hd hn
  · exact pyStem_append_ext (pyStem name) fmt hstem hd hn

/-- Witness for C3: a png input transcoded to webp gets a webp output name. -/
theorem destination_extension_matches_format_witness :
    (mkJob "in".toList "out".toList "webp".toList "a.png".toList).output_path
      = "out".toList ++ '/' :: (pyStem "a.png".toList ++ '.' :: "webp".toList)
    ∧ pySuffix (outputName "a.png".toList "webp".toList) = '.' :: "webp".toList
    ∧ pyStem (outputName "a.png".toList "webp".toList) = pyStem "a.png".toList :=
  destination_extension_matches_format "in".toList "out".toList "a.png".toList
    "webp".toList (by decide) (by decide)

/-- The job builder is injective in the input file name. -/
theorem mkJob_inj (image_folder output_folder fmt a b : Str)
    (h : mkJob image_folder output_folder fmt a = mkJob image_folder output_folder fmt b) :
    a = b := by
  have h1 := congrArg Job.input_path h
  simp only [mkJob] at h1
  have h2 := List.append_cancel_left h1
  exact (List.cons.inj h2).2

/-- C5: a file of the input directory listing is given a job (and counted in
the report total, which equals the number of submitted jobs) if and only if
its extension, compared case-insensitively, is one of .jpg, .jpeg, .png,
.webp; other files get no job and so no output file. -/
theorem eligibility_governs_batch_membership (image_folder output_folder fmt : Str)
    (listing : List Str) (name : Str) (hmem : name ∈ listing) :
    (mkJob image_folder output_folder fmt name
        ∈ batchJobs image_folder output_folder fmt listing
      ↔ strLower (pySuffix name) ∈ SUPPORTED_SUFFIXES)
    ∧ ∀ quality transform order r,
        process_images image_folder output_folder transform fmt quality listing order
          = some r →
        r.total = (batchJobs image_folder output_folder fmt listing).length := by
  constructor
  · constructor
    · intro hj
      rcases List.mem_map.mp hj with ⟨x, hx, heq⟩
      have hx2 := mkJob_inj image_folder output_folder fmt x name heq
      subst hx2
      have := (List.mem_filter.mp hx).2
      rwa [eligible, decide_eq_true_eq] at this
    · intro hext
      exact List.mem_map.mpr ⟨name,
        List.mem_filter.mpr ⟨hmem, by rw [eligible, decide_eq_true_eq]; exact hext⟩, rfl⟩
  · intro quality transform order r hr
    by_cases hE : (listing.filter (fun f => eligible f)).isEmpty = true
    · simp [process_images, hE] at hr
    · rw [Bool.not_eq_true] at hE
      simp only [process_images, hE, Bool.false_eq_true, if_false, Option.some.injEq] at hr
      rw [← hr, foldl_collect_total, batchJobs, List.length_map]

/-- Witness for C5 at a concrete mixed listing. -/
theorem eligibility_governs_batch_membership_witness :
    (mkJob "in".toList "out".toList "jpeg".toList "a.WEBP".toList
        ∈ batchJobs "in".toList "out".toList "jpeg".toList
          ["a.WEBP".toList, "b.txt".toList]
      ↔ strLower (pySuffix "a.WEBP".toList) ∈ SUPPORTED_SUFFIXES)
    ∧ ∀ quality transform order r,
        process_images "in".toList "out".toList transform "jpeg".toList quality
          ["a.WEBP".toList, "b.txt".toList] order = some r →
        r.total = (batchJobs "in".toList "out".toList "jpeg".toList
          ["a.WEBP".toList, "b.txt".toList]).length :=
  eligibility_governs_batch_membership "in".toList "out".toList "jpeg".toList
    ["a.WEBP".toList, "b.txt".toList] "a.WEBP".toList (by decide)

/-- C4 counterexample: the format string jpg lies outside {jpeg, webp, png},
yet save_with_format accepts it (SUPPORTED_FORMATS in the source also
contains jpg), saving as JPEG instead of raising UnsupportedFormatError. -/
theorem jpg_not_unsupported_counterexample :
    save_with_format "out.jpg".toList "jpg".toList none true none
      = SaveOutcome.saved
          { fmt := "JPEG".toList
            quality := some 85
            progressive := some true
            optimize := true } := by
  decide

/-- C4 amended: for every format string whose lowercase form lies outside
{jpeg, jpg, webp, png}, save_with_format raises UnsupportedFormatError, and a
job requesting such a format is reflected as a Failure entry of the report
(with the wrapped message) rather than crashing the batch. -/
theorem unsupported_format_rejected_and_reported (fmt : Str)
    (hfmt : strLower fmt ∉ SUPPORTED_FORMATS)
    (output_path : Str) (quality : Option Nat) (progressive : Bool) (io : Option Str)
    (image_folder output_folder name : Str) (hel : eligible name = true) :
    save_with_format output_path fmt quality progressive io
      = .unsupportedFormat (unsupportedMsg (strLower fmt))
    ∧ process_images image_folder output_folder (resize_image none io) fmt quality
        [name] [name]
      = some { total := 1
               successful := 0
               failed := 1
               errors := [(mkJob image_folder output_folder fmt name).input_path
                 ++ ": ".toList ++ ("Failed to process ".toList
                 ++ (mkJob image_folder output_folder fmt name).input_path
                 ++ ": ".toList ++ unsupportedMsg (strLower fmt))] } := by
  have hsave : ∀ p : Str, save_with_format p fmt quality true io
      = .unsupportedFormat (unsupportedMsg (strLower fmt)) := by
    intro p
    simp only [save_with_format]
    rw [if_neg hfmt]
  constructor
  · simp only [save_with_format]
    rw [if_neg hfmt]
  · have hflt : ([name] : List Str).filter (fun f => eligible f) = [name] := by
      simp [hel]
    simp only [process_images, hflt, List.isEmpty_cons, List.length_cons,
      List.length_nil, List.foldl_cons, List.foldl_nil, Bool.false_eq_true,
      if_false, collectJob, resize_image, hsave, Option.some.injEq]
    rfl

/-- Witness for the amended C4 at the concrete unsupported format bmp. -/
theorem unsupported_format_rejected_and_reported_witness :
    save_with_format "o.bmp".toList "bmp".toList none true none
      = .unsupportedFormat (unsupportedMsg (strLower "bmp".toList))
    ∧ process_images "in".toList "out".toList (resize_image none none)
        "bmp".toList none ["a.jpg".toList] ["a.jpg".toList]
      = some { total := 1
               successful := 0
               failed := 1
               errors := [(mkJob "in".toList "out".toList "bmp".toList
                   "a.jpg".toList).input_path
                 ++ ": ".toList ++ ("Failed to process ".toList
                 ++ (mkJob "in".toList "out".toList "bmp".toList
                   "a.jpg".toList).input_path
                 ++ ": ".toList ++ unsupportedMsg (strLower "bmp".toList))] } :=
  unsupported_format_rejected_and_reported "bmp".toList (by decide) "o.bmp".toList
    none true none "in".toList "out".toList "a.jpg".toList (by decide)

/-- C6 counterexample: a source with EXIF orientation 6 processed by rotate
with output format webp gets the 270 degree rotation, but no normalization
happens: no exif argument is passed to the save call, and the EXIF
dictionary still attached to the saved image keeps orientation 6, not 1
(a stale tag on a rotated output). -/
theorem rotate_webp_stale_orientation_counterexample :
    rotate (some { orientation := some 6 }) "out.webp".toList "webp".toList none none
      = { rotation := .deg270
          exifArg := none
          infoExif := some { orientation := some 6 }
          save := .viaFormat (.saved
            { fmt := "WEBP".toList
              quality := some 80
              progressive := none
              optimize := true }) } := by
  decide

/-- C6 amended: for sources carrying EXIF data whose job requests jpeg or jpg
output (case-insensitive), rotate writes orientation 1 both in the exif bytes
passed to the save call and in the metadata attached to the image, after
applying the rotation selected by the source orientation; for other output
formats the code performs no normalization. -/
theorem rotate_jpeg_normalizes_orientation (d : ExifDict) (output_path fmt : Str)
    (quality : Option Nat) (io : Option Str)
    (hfmt : strLower fmt = "jpeg".toList ∨ strLower fmt = "jpg".toList) :
    (rotate (some d) output_path fmt quality io).exifArg
        = some (_update_orientation d 1)
    ∧ (rotate (some d) output_path fmt quality io).infoExif
        = some (_update_orientation d 1)
    ∧ (_update_orientation d 1).orientation = some 1
    ∧ (rotate (some d) output_path fmt quality io).rotation
        = rotationFor (_extract_orientation (some d)) := by
  refine ⟨?_, ?_, rfl, ?_⟩ <;>
    (simp only [rotate]; rw [if_pos hfmt])

/-- Witness for the amended C6: orientation 6 with capitalized JPEG format. -/
theorem rotate_jpeg_normalizes_orientation_witness :
    (rotate (some { orientation := some 6 }) "o.jpeg".toList "JPEG".toList
        none none).exifArg
      = some (_update_orientation { orientation := some 6 } 1)
    ∧ (rotate (some { orientation := some 6 }) "o.jpeg".toList "JPEG".toList
        none none).infoExif
      = some (_update_orientation { orientation := some 6 } 1)
    ∧ (_update_orientation { orientation := some 6 } 1).orientation = some 1
    ∧ (rotate (some { orientation := some 6 }) "o.jpeg".toList "JPEG".toList
        none none).rotation
      = rotationFor (_extract_orientation (some { orientation := some 6 })) :=
  rotate_jpeg_normalizes_orientation { orientation := some 6 } "o.jpeg".toList
    "JPEG".toList none none (Or.inl (by decide))

/-- C8: with quality unspecified the encoder applies the per-format default:
jpeg saves with quality 85, webp with quality 80, and png with no quality
argument at all (lossless). -/
theorem default_quality_per_format (output_path : Str) (progressive : Bool) :
    save_with_format output_path "jpeg".toList none progressive none
      = .saved { fmt := "JPEG".toList
                 quality := some 85
                 progressive := some progressive
                 optimize := true }
    ∧ save_with_format output_path "webp".toList none progressive none
      = .saved { fmt := "WEBP".toList
                 quality := some 80
                 progressive := none
                 optimize := true }
    ∧ save_with_format output_path "png".toList none progressive none
      = .saved { fmt := "PNG".toList
                 quality := none
                 progressive := none
                 optimize := true } :=
  ⟨rfl, rfl, rfl⟩

/-- C9: the encoder lowercases the format before matching, so every
capitalization of a supported format name behaves exactly like its lowercase
form, and jpg is an accepted alias encoded as JPEG with default quality 85
when quality is unspecified. -/
theorem format_case_insensitive_jpg_alias (output_path fmt : Str)
    (quality : Option Nat) (progressive : Bool) (io : Option Str)
    (hsup : strLower fmt ∈ SUPPORTED_FORMATS) :
    save_with_format output_path fmt quality progressive io
      = save_with_format output_path (strLower fmt) quality progressive io
    ∧ (strLower fmt = "jpg".toList → quality = none → io = none →
        save_with_format output_path fmt quality progressive io
          = .saved { fmt := "JPEG".toList
                     quality := some 85
                     progressive := some progressive
                     optimize := true }) := by
  have hmem := hsup
  simp only [SUPPORTED_FORMATS, List.mem_cons, List.not_mem_nil, or_false] at hmem
  have hll : strLower (strLower fmt) = strLower fmt := by
    rcases hmem with h | h | h | h <;> rw [h] <;> decide
  have heq : save_with_format output_path fmt quality progressive io
      = save_with_format output_path (strLower fmt) quality progressive io := by
    simp only [save_with_format, hll]
  refine ⟨heq, ?_⟩
  intro hjpg hq hio
  subst hq
  subst hio
  rw [heq, hjpg]
  exact rfl

/-- Witness for C9 at the capitalized alias JpG. -/
theorem format_case_insensitive_jpg_alias_witness :
    save_with_format "o".toList "JpG".toList none true none
      = save_with_format "o".toList (strLower "JpG".toList) none true none
    ∧ (strLower "JpG".toList = "jpg".toList → (none : Option Nat) = none →
        (none : Option Str) = none →
        save_with_format "o".toList "JpG".toList none true none
          = .saved { fmt := "JPEG".toList
                     quality := some 85
                     progressive := some true
                     optimize := true }) :=
  format_case_insensitive_jpg_alias "o".toList "JpG".toList none true none
    (by decide)

/-- C10: for a source with no EXIF data, or whose EXIF lacks an orientation
entry, the extracted orientation defaults to 1 and rotate applies no pixel
rotation, re-encoding the image unrotated. -/
theorem missing_exif_defaults_to_identity (srcExif : Option ExifDict)
    (h : srcExif = none ∨ ∃ d, srcExif = some d ∧ d.orientation = none)
    (output_path fmt : Str) (quality : Option Nat) (io : Option Str) :
    _extract_orientation srcExif = 1
    ∧ (rotate srcExif output_path fmt quality io).rotation = .noRotation := by
  rcases h with rfl | ⟨d, rfl, hd⟩
  · exact ⟨rfl, rfl⟩
  · refine ⟨by simp [_extract_orientation, hd], ?_⟩
    simp only [rotate, _extract_orientation, hd, Option.getD_none]
    split <;> rfl

/-- Witness for C10: EXIF present but carrying no orientation entry. -/
theorem missing_exif_defaults_to_identity_witness :
    _extract_orientation (some { orientation := none })  = 1
    ∧ (rotate (some { orientation := none }) "o.jpeg".toList "jpeg".toList
        none none).rotation = .noRotation :=
  missing_exif_defaults_to_identity (some { orientation := none })
    (Or.inr ⟨{ orientation := none }, rfl, rfl⟩) "o.jpeg".toList "jpeg".toList
    none none
